import Mathlib

/-!
# Verification of the chat-relay server (`p1g1S.c` / extended server in `p1g1C.c`)

Shallow embedding of the server's connection handler, client registry,
and message queue.  C strings are modelled as `List Char`; the bytes a
`send_all(fd, buf, n)` call puts on the wire are modelled separately
(`sentBytes`) because two call sites pass a byte count larger than the
string length, which transmits the trailing NUL.

The extended server (second part of `p1g1C.c`) is the variant with the
password phase; its login/active code is identical to `p1g1S.c`, so one
model covers both.
-/

set_option autoImplicit false

namespace ChatServer

abbrev Str := List Char

/-- `#define SERVER_PASSWORD "PleaseGiveUsExtraCredit:)"`. -/
def SERVER_PASSWORD : Str := "PleaseGiveUsExtraCredit:)".toList

/-- `#define MAX_USERNAME 32`. -/
def MAX_USERNAME : Nat := 32

/-- `#define MAX_MESSAGE 1024`. -/
def MAX_MESSAGE : Nat := 1024

/-- The effect of `strchr(buf, '\n'); if (nl) *nl = '\0';` on the C string in
`buf`: the string is cut at the first newline (unchanged if there is none). -/
def trimNL (s : Str) : Str := s.takeWhile (fun c => c ≠ '\n')

/-- One observable action of a connection-handler thread:
`send` models a `send_all(c->sockfd, data, count)` call (the literal and the
byte count passed at the call site), `enqueueEv` models an
`enqueue_message(sender, text)` call with its two arguments, and `removeSelf`
models the single `close_and_free_client(c)` call on a return path (socket
close + `remove_client` + free). -/
inductive Effect where
  | send (data : Str) (count : Nat)
  | enqueueEv (sender text : Str)
  | removeSelf
deriving DecidableEq

/-- `send_all(c->sockfd, "PASSWORD:\n", 10)`. -/
def promptSend : Effect := .send "PASSWORD:\n".toList 10

/-- `send_all(c->sockfd, "OKPASS\n", 7)`. -/
def okpassSend : Effect := .send "OKPASS\n".toList 7

/-- `send_all(c->sockfd, "ERR:Expected PASS:<password>\n", 30)` — note the
count 30 against a 29-character string. -/
def errExpectedSend : Effect := .send "ERR:Expected PASS:<password>\n".toList 30

/-- `send_all(c->sockfd, "ERR:Bad password\n", 17)`. -/
def errBadSend : Effect := .send "ERR:Bad password\n".toList 17

/-- `send_all(c->sockfd, "ERR:Too many attempts\n", 23)` — note the count 23
against a 22-character string. -/
def errTooManySend : Effect := .send "ERR:Too many attempts\n".toList 23

/-- `send_all` of `"ERR:Invalid login. Send LOGIN:<username>\\n\n"` with
`strlen`. -/
def errInvalidLoginSend : Effect :=
  .send "ERR:Invalid login. Send LOGIN:<username>\\n\n".toList
    "ERR:Invalid login. Send LOGIN:<username>\\n\n".toList.length

/-- `send_all` of `"ERR:Empty username\n"` with `strlen`. -/
def errEmptySend : Effect :=
  .send "ERR:Empty username\n".toList "ERR:Empty username\n".toList.length

/-- `send_all` of `"ERR:Username taken\n"` with `strlen`. -/
def errTakenSend : Effect :=
  .send "ERR:Username taken\n".toList "ERR:Username taken\n".toList.length

/-- `send_all` of `"ERR:Unknown command\n"` with `strlen`. -/
def errUnknownSend : Effect :=
  .send "ERR:Unknown command\n".toList "ERR:Unknown command\n".toList.length

/-- `send_all(c->sockfd, "OK\n", 3)`. -/
def okSend : Effect := .send "OK\n".toList 3

/-- Classifier for `close_and_free_client` effects. -/
def isRemove : Effect → Bool
  | .removeSelf => true
  | _ => false

/-- Classifier for `enqueue_message` effects. -/
def isEnq : Effect → Bool
  | .enqueueEv _ _ => true
  | _ => false

/-- The password test of the extended server:
`strncmp(buf, "PASS:", 5) == 0 && strcmp(buf + 5, SERVER_PASSWORD) == 0`,
applied to the newline-trimmed line. -/
def pwCorrect (t : Str) : Bool :=
  "PASS:".toList.isPrefixOf t && (t.drop 5 == SERVER_PASSWORD)

/-- The ERR line a wrong password-phase line receives: `ERR:Bad password` when
the `PASS:` prefix was present (so the payload mismatched), otherwise
`ERR:Expected PASS:<password>`. -/
def errOf (t : Str) : Effect :=
  if "PASS:".toList.isPrefixOf t then errBadSend else errExpectedSend

/-- The password-phase loop of the extended server's `client_thread`
(`while (attempts < 5) { ... }` plus the `attempts >= 5` check after it).
The first argument is the `attempts` counter; the second is the sequence of
lines `recv_line` will deliver (exhaustion = read failure / EOF, on which the
code closes silently).  Returns the effects performed and whether the phase
succeeded (reached the login code). -/
def pwGo : Nat → List Str → List Effect × Bool
  | a, [] =>
    if a < 5 then ([promptSend, .removeSelf], false)
    else ([errTooManySend, .removeSelf], false)
  | a, l :: rest =>
    if a < 5 then
      if pwCorrect (trimNL l) then ([promptSend, okpassSend], true)
      else
        let r := pwGo (a + 1) rest
        (promptSend :: errOf (trimNL l) :: r.1, r.2)
    else ([errTooManySend, .removeSelf], false)

/-- One entry of the global client list: the fields of `struct client` that
the login logic reads (`username`, `logged_in`). -/
structure RegEntry where
  username : Str
  loggedIn : Bool
deriving DecidableEq

/-- `username_taken(username)`: walks the client list and reports whether a
logged-in client already holds the name (the C loop breaks at the first hit;
scanning on is observationally identical). -/
def username_taken (u : Str) : List RegEntry → Bool
  | [] => false
  | c :: rest => if c.loggedIn && c.username == u then true else username_taken u rest

/-- `snprintf(joinmsg, MAX_MESSAGE, ...)`: the formatted string is cut to at
most `MAX_MESSAGE - 1 = 1023` characters (plus the NUL terminator). -/
def snprintfCap (s : Str) : Str := s.take (MAX_MESSAGE - 1)

/-- `"*** %s has joined the chat ***"` formatted with the username. -/
def joinMsg (u : Str) : Str :=
  snprintfCap ("*** ".toList ++ u ++ " has joined the chat ***".toList)

/-- `"*** %s has left the chat ***"` formatted with the username. -/
def leaveMsg (u : Str) : Str :=
  snprintfCap ("*** ".toList ++ u ++ " has left the chat ***".toList)

def serverName : Str := "Server".toList

/-- Helper of `extractLines`: `acc` is the current line built so far (the
characters between `p` and the next newline already scanned past). -/
def extractGo (acc : Str) : Str → List Str
  | [] => [acc.take (MAX_MESSAGE - 1)]
  | c :: cs =>
    if c = '\n' then
      acc.take (MAX_MESSAGE - 1) :: (if cs = [] then [] else extractGo [] cs)
    else extractGo (acc ++ [c]) cs

/-- The line-splitting loop of the Active-state receive code
(`while (p && *p) { char *nl = strchr(p, '\n'); ... }`): each
newline-terminated segment becomes a line, truncated to
`MAX_MESSAGE - 1 = 1023` bytes; a trailing segment with no newline is ALSO
produced as a line (the `strncpy` branch) — the residual is not buffered for
the next read. -/
def extractLines (p : Str) : List Str :=
  if p = [] then [] else extractGo [] p

/-- Processing of the extracted lines of one read chunk: `MSG:` lines are
enqueued under the client's username, `QUIT` jumps to the disconnect label
(second component `true`; the rest of the chunk is abandoned), anything else
is answered with `ERR:Unknown command`. -/
def procLines (u : Str) : List Str → List Effect × Bool
  | [] => ([], false)
  | line :: rest =>
    if "MSG:".toList.isPrefixOf line then
      (.enqueueEv u (line.drop 4) :: (procLines u rest).1, (procLines u rest).2)
    else if line = "QUIT".toList then ([], true)
    else (errUnknownSend :: (procLines u rest).1, (procLines u rest).2)

/-- The Active-state receive loop (`while (server_running) { recv; ... }`).
Each element of `chunks` is what one `recv` returns; list exhaustion or an
empty chunk models `n <= 0` (EOF / error), ending the loop.  A `QUIT` line
stops everything (the `goto disconnect`). -/
def activeLoop (u : Str) : List Str → List Effect
  | [] => []
  | ch :: rest =>
    if ch = [] then []
    else
      if (procLines u (extractLines ch)).2 then (procLines u (extractLines ch)).1
      else (procLines u (extractLines ch)).1 ++ activeLoop u rest

/-- The socket input of one connection, split by the phase that consumes it:
the lines `recv_line` yields in the password phase, the single raw `recv`
chunk of the login phase (`none` = read failure / EOF), and the raw `recv`
chunks of the Active loop.  `others` is the content of the global client
list (besides this client) when `username_taken` runs. -/
structure HandlerInput where
  pwLines : List Str
  loginChunk : Option Str
  activeChunks : List Str
  others : List RegEntry
deriving DecidableEq

/-- The login phase and everything after it (extended server `client_thread`
from the `// Expect LOGIN:<username>` comment to its return): one `recv`
(`none` = read failure / EOF), trim at the first newline, validate, and on
success run the Active loop and the disconnect path. -/
def loginAndActive (others : List RegEntry) (activeChunks : List Str) :
    Option Str → List Effect
  | none => [.removeSelf]
  | some chunk =>
    if "LOGIN:".toList.isPrefixOf (trimNL chunk) then
      if ((trimNL chunk).drop 6).take (MAX_USERNAME - 1) = [] then [errEmptySend, .removeSelf]
      else if username_taken (((trimNL chunk).drop 6).take (MAX_USERNAME - 1)) others then
        [errTakenSend, .removeSelf]
      else
        okSend
          :: .enqueueEv serverName (joinMsg (((trimNL chunk).drop 6).take (MAX_USERNAME - 1)))
          :: (activeLoop (((trimNL chunk).drop 6).take (MAX_USERNAME - 1)) activeChunks
              ++ [.enqueueEv serverName (leaveMsg (((trimNL chunk).drop 6).take (MAX_USERNAME - 1))),
                  .removeSelf])
    else [errInvalidLoginSend, .removeSelf]

/-- The whole `client_thread` of the extended server: password phase, then —
only if it succeeded — the login phase and the Active loop.  On password
failure the thread has already closed the connection and returned. -/
def client_thread (inp : HandlerInput) : List Effect :=
  if (pwGo 0 inp.pwLines).2 then
    (pwGo 0 inp.pwLines).1 ++ loginAndActive inp.others inp.activeChunks inp.loginChunk
  else (pwGo 0 inp.pwLines).1

/-- `some uname` when this input reaches `c->logged_in = 1` (with the
username actually stored, i.e. truncated to 31 characters), `none` when the
connection dies before login completes.  Mirrors the branch structure of
`client_thread`. -/
def loginOutcomeAux (others : List RegEntry) : Option Str → Option Str
  | none => none
  | some chunk =>
    if "LOGIN:".toList.isPrefixOf (trimNL chunk) then
      if ((trimNL chunk).drop 6).take (MAX_USERNAME - 1) = [] then none
      else if username_taken (((trimNL chunk).drop 6).take (MAX_USERNAME - 1)) others then none
      else some (((trimNL chunk).drop 6).take (MAX_USERNAME - 1))
    else none

def loginOutcome (inp : HandlerInput) : Option Str :=
  if (pwGo 0 inp.pwLines).2 then loginOutcomeAux inp.others inp.loginChunk else none

/-! ## Message queue (`struct message`, `enqueue_message`, `dequeue_message`)

The linked list hanging off `msg_head`/`msg_tail` is modelled as a `List`
in head-to-tail order; both operations run entirely under `msg_mutex`, so
every concurrent execution is a serialization of atomic queue operations. -/

/-- `struct message` payload: sender and text as stored by the two `strncpy`
calls into the `calloc`ed node. -/
structure message_t where
  sender : Str
  text : Str
deriving DecidableEq

/-- What `enqueue_message` stores: `strncpy(m->sender, sender, MAX_USERNAME-1)`
and `strncpy(m->text, text, MAX_MESSAGE-1)` into zeroed buffers. -/
def mkMessage (s t : Str) : message_t :=
  ⟨s.take (MAX_USERNAME - 1), t.take (MAX_MESSAGE - 1)⟩

/-- `enqueue_message(sender, text)`: `allocOk` is whether `calloc` succeeded
(`if (!m) return;`).  On success the node is linked at `msg_tail` (with the
empty-queue special case); on failure the queue is left untouched and no
error is reported (the C function returns `void`). -/
def enqueue_message (allocOk : Bool) (s t : Str) (q : List message_t) : List message_t :=
  if allocOk then
    match q with
    | [] => [mkMessage s t]
    | _ => q ++ [mkMessage s t]
  else q

/-- `dequeue_message()`: returns `NULL` (here `none`) once `server_running`
is cleared — even if entries remain, which are thereby discarded; otherwise
pops `msg_head` (and clears `msg_tail` when the queue empties).  An empty
queue with the server running makes the C code block on `msg_cond`; that
blocked wait is modelled as `(none, q)` — no message is consumed. -/
def dequeue_message (running : Bool) (q : List message_t) : Option message_t × List message_t :=
  if running then
    match q with
    | [] => (none, q)
    | m :: rest => (some m, rest)
  else (none, q)

/-- One serialized queue operation: a producer's `enqueue_message` call
(with its allocation outcome), the Dispatcher's `dequeue_message` call, or
the shutdown flag being cleared (`server_running = 0`). -/
inductive QOp where
  | enq (s t : Str) (allocOk : Bool)
  | deq
  | shutdown
deriving DecidableEq

/-- Queue state plus the observation logs the FIFO property is stated over:
`enqLog` records every message actually placed on the queue, in order;
`deqLog` records every message `dequeue_message` returned, in order. -/
structure QTrace where
  queue : List message_t
  running : Bool
  enqLog : List message_t
  deqLog : List message_t
deriving DecidableEq

def qInit : QTrace := ⟨[], true, [], []⟩

def qstep (st : QTrace) : QOp → QTrace
  | .enq s t ok =>
    { st with
      queue := enqueue_message ok s t st.queue
      enqLog := if ok then st.enqLog ++ [mkMessage s t] else st.enqLog }
  | .deq =>
    match dequeue_message st.running st.queue with
    | (some m, q2) => { st with queue := q2, deqLog := st.deqLog ++ [m] }
    | (none, q2) => { st with queue := q2 }
  | .shutdown => { st with running := false }

def qrun (st : QTrace) : List QOp → QTrace
  | [] => st
  | op :: ops => qrun (qstep st op) ops

/-! ## The login race (`username_taken` check vs. `logged_in` commit)

`username_taken` runs under `clients_mutex`, but the commit
(`strncpy(c->username, ...); c->logged_in = 1;`) runs after that mutex was
released, so the check and the commit of two concurrent logins can
interleave freely.  Two freshly accepted clients A and B (both already on
the client list with `logged_in = 0`, as `main` adds them) both attempt the
same username `u`. -/

/-- Where a login attempt stands: before its `username_taken` call; past a
negative check (about to commit); committed (`logged_in = 1`, `OK` sent);
or rejected (`ERR:Username taken` sent, connection closed). -/
inductive LPc where
  | start
  | passed
  | committed
  | rejected
deriving DecidableEq

structure RaceState where
  a : RegEntry
  aPc : LPc
  b : RegEntry
  bPc : LPc
deriving DecidableEq

/-- Both clients fresh from `accept`: on the list, `calloc`ed username,
`logged_in = 0`. -/
def raceInit : RaceState := ⟨⟨[], false⟩, .start, ⟨[], false⟩, .start⟩

inductive Tid where
  | A
  | B
deriving DecidableEq

/-- One atomic step of a login attempt for username `u`: `check` is the
locked `username_taken(uname)` call over the client list (deciding OK vs.
`ERR:Username taken`), `commit` is the later unlocked
`c->username = u; c->logged_in = 1; send OK`. -/
inductive LStep where
  | check (t : Tid)
  | commit (t : Tid)
deriving DecidableEq

def raceStep (u : Str) (st : RaceState) : LStep → RaceState
  | .check .A =>
    if st.aPc = .start then
      if username_taken u [st.a, st.b] then { st with aPc := .rejected }
      else { st with aPc := .passed }
    else st
  | .check .B =>
    if st.bPc = .start then
      if username_taken u [st.a, st.b] then { st with bPc := .rejected }
      else { st with bPc := .passed }
    else st
  | .commit .A =>
    if st.aPc = .passed then
      { st with a := ⟨u.take (MAX_USERNAME - 1), true⟩, aPc := .committed }
    else st
  | .commit .B =>
    if st.bPc = .passed then
      { st with b := ⟨u.take (MAX_USERNAME - 1), true⟩, bPc := .committed }
    else st

def raceRun (u : Str) (schedule : List LStep) : RaceState :=
  schedule.foldl (raceStep u) raceInit

/-! ## Bytes on the wire (`send_all(fd, lit, n)` for a string literal) -/

/-- The `n` bytes `send_all` transmits when passed a NUL-terminated string
literal and an explicit count `n ≤ strlen + 1`: the characters of the
literal, then the trailing NUL if `n` exceeds the length. -/
def sentBytes (s : Str) (n : Nat) : List Nat :=
  (s.map Char.toNat ++ List.replicate n 0).take n

/-- `strncpy(dst, src, n)` into a `calloc`ed buffer of `bufLen ≥ n` bytes:
the first `min n (strlen src)` bytes hold `src`, everything after stays 0. -/
def strncpyCalloc (src : Str) (n bufLen : Nat) : List Nat :=
  ((src.take n).map Char.toNat ++ List.replicate bufLen 0).take bufLen

/-- `broadcast_formatted`'s `snprintf(out, sizeof(out), "%s: %s\n", ...)`
with `sizeof(out) = MAX_USERNAME + 2 + MAX_MESSAGE + 2 = 1060`: at most
1059 characters survive (plus the NUL). -/
def broadcast_formatted_line (sender text : Str) : Str :=
  (sender ++ ": ".toList ++ text ++ ['\n']).take (MAX_USERNAME + 2 + MAX_MESSAGE + 2 - 1)

/-! ## Helper lemmas -/

theorem enqueue_message_true (s t : Str) (q : List message_t) :
    enqueue_message true s t q = q ++ [mkMessage s t] := by
  cases q <;> simp [enqueue_message]

theorem enqueue_message_false (s t : Str) (q : List message_t) :
    enqueue_message false s t q = q := by
  simp [enqueue_message]

theorem dequeue_message_not_running (q : List message_t) :
    dequeue_message false q = (none, q) := by
  simp [dequeue_message]

theorem qstep_inv (st : QTrace) (op : QOp) (h : st.deqLog ++ st.queue = st.enqLog) :
    (qstep st op).deqLog ++ (qstep st op).queue = (qstep st op).enqLog := by
  cases op with
  | enq s t ok =>
    cases ok with
    | true => simp [qstep, enqueue_message_true, ← h]
    | false => simp [qstep, enqueue_message_false, h]
  | deq =>
    cases hr : st.running with
    | false => simp [qstep, dequeue_message, hr, h]
    | true =>
      cases hq : st.queue with
      | nil => simp [qstep, dequeue_message, hr, hq, ← h, hq]
      | cons m rest =>
        simp [qstep, dequeue_message, hr, hq, ← h, hq]
  | shutdown => simp [qstep, h]

theorem qrun_inv (ops : List QOp) (st : QTrace) (h : st.deqLog ++ st.queue = st.enqLog) :
    (qrun st ops).deqLog ++ (qrun st ops).queue = (qrun st ops).enqLog := by
  induction ops generalizing st with
  | nil => exact h
  | cons op ops ih => exact ih (qstep st op) (qstep_inv st op h)

/-! ### Password-phase lemmas -/

theorem pwGo_five (lines : List Str) :
    pwGo 5 lines = ([errTooManySend, .removeSelf], false) := by
  cases lines <;> simp [pwGo]

theorem pwGo_step_wrong (a : Nat) (l : Str) (rest : List Str)
    (ha : a < 5) (hw : pwCorrect (trimNL l) = false) :
    pwGo a (l :: rest)
      = (promptSend :: errOf (trimNL l) :: (pwGo (a + 1) rest).1, (pwGo (a + 1) rest).2) := by
  simp [pwGo, ha, hw]

theorem pwGo_step_correct (a : Nat) (l : Str) (rest : List Str)
    (ha : a < 5) (hc : pwCorrect (trimNL l) = true) :
    pwGo a (l :: rest) = ([promptSend, okpassSend], true) := by
  simp [pwGo, ha, hc]

theorem pwGo_head (a : Nat) (lines : List Str) (ha : a < 5) :
    (pwGo a lines).1.head? = some promptSend := by
  cases lines with
  | nil => simp [pwGo, ha]
  | cons l rest =>
    by_cases hc : pwCorrect (trimNL l) = true
    · simp [pwGo, ha, hc]
    · simp [pwGo, ha, hc]

theorem isRemove_send (d : Str) (n : Nat) : isRemove (.send d n) = false := rfl

theorem isEnq_send (d : Str) (n : Nat) : isEnq (.send d n) = false := rfl

theorem isRemove_enqueueEv (s t : Str) : isRemove (.enqueueEv s t) = false := rfl

theorem isEnq_enqueueEv (s t : Str) : isEnq (.enqueueEv s t) = true := rfl

theorem isRemove_errOf (t : Str) : isRemove (errOf t) = false := by
  unfold errOf
  split <;> rfl

theorem isEnq_errOf (t : Str) : isEnq (errOf t) = false := by
  unfold errOf
  split <;> rfl

theorem pwGo_countP_remove (lines : List Str) (a : Nat) :
    (pwGo a lines).1.countP isRemove = (if (pwGo a lines).2 then 0 else 1) := by
  induction lines generalizing a with
  | nil =>
    by_cases ha : a < 5 <;>
      simp [pwGo, ha, List.countP_cons, isRemove, promptSend, errTooManySend]
  | cons l rest ih =>
    by_cases ha : a < 5
    · by_cases hc : pwCorrect (trimNL l) = true
      · simp [pwGo, ha, hc, List.countP_cons, isRemove, promptSend, okpassSend]
      · rw [pwGo_step_wrong a l rest ha (by simpa using hc)]
        have := ih (a + 1)
        simp [List.countP_cons, promptSend, isRemove_send, isRemove_errOf, this]
    · simp [pwGo, ha, List.countP_cons, isRemove, errTooManySend]

theorem pwGo_countP_enq (lines : List Str) (a : Nat) :
    (pwGo a lines).1.countP isEnq = 0 := by
  induction lines generalizing a with
  | nil =>
    by_cases ha : a < 5 <;>
      simp [pwGo, ha, List.countP_cons, isEnq, promptSend, errTooManySend]
  | cons l rest ih =>
    by_cases ha : a < 5
    · by_cases hc : pwCorrect (trimNL l) = true
      · simp [pwGo, ha, hc, List.countP_cons, isEnq, promptSend, okpassSend]
      · rw [pwGo_step_wrong a l rest ha (by simpa using hc)]
        have := ih (a + 1)
        simp [List.countP_cons, promptSend, isEnq_send, isEnq_errOf, this]
    · simp [pwGo, ha, List.countP_cons, isEnq, errTooManySend]

theorem pwGo_success (lines : List Str) (a : Nat) (h : (pwGo a lines).2 = true) :
    (∃ pre, (pwGo a lines).1 = pre ++ [okpassSend])
      ∧ ∃ l, l ∈ lines ∧ pwCorrect (trimNL l) = true := by
  induction lines generalizing a with
  | nil =>
    by_cases ha : a < 5 <;> simp [pwGo, ha] at h
  | cons l rest ih =>
    by_cases ha : a < 5
    · by_cases hc : pwCorrect (trimNL l) = true
      · refine ⟨⟨[promptSend], ?_⟩, l, List.mem_cons_self l rest, hc⟩
        simp [pwGo, ha, hc]
      · rw [pwGo_step_wrong a l rest ha (by simpa using hc)] at h ⊢
        obtain ⟨⟨pre, hpre⟩, l2, hl2, hc2⟩ := ih (a + 1) h
        exact ⟨⟨promptSend :: errOf (trimNL l) :: pre, by simp [hpre]⟩,
          l2, List.mem_cons_of_mem l hl2, hc2⟩
    · simp [pwGo, ha] at h

/-! ### Line-splitting lemmas -/

theorem extractGo_no_nl (a : Str) (acc : Str) (h : '\n' ∉ a) :
    extractGo acc a = [(acc ++ a).take (MAX_MESSAGE - 1)] := by
  induction a generalizing acc with
  | nil => simp [extractGo]
  | cons c cs ih =>
    have hc : c ≠ '\n' := fun hh => h (hh ▸ List.mem_cons_self c cs)
    have hcs : '\n' ∉ cs := fun hm => h (List.mem_cons_of_mem c hm)
    simp [extractGo, hc, ih (acc ++ [c]) hcs]

theorem extractGo_split (a b : Str) (acc : Str) (h : '\n' ∉ a) :
    extractGo acc (a ++ '\n' :: b)
      = (acc ++ a).take (MAX_MESSAGE - 1) :: (if b = [] then [] else extractGo [] b) := by
  induction a generalizing acc with
  | nil => simp [extractGo]
  | cons c cs ih =>
    have hc : c ≠ '\n' := fun hh => h (hh ▸ List.mem_cons_self c cs)
    have hcs : '\n' ∉ cs := fun hm => h (List.mem_cons_of_mem c hm)
    simp [extractGo, hc, ih (acc ++ [c]) hcs]

theorem trimNL_append_nl (a b : Str) (h : '\n' ∉ a) : trimNL (a ++ '\n' :: b) = a := by
  induction a with
  | nil => simp [trimNL]
  | cons c cs ih =>
    have hc : c ≠ '\n' := fun hh => h (hh ▸ List.mem_cons_self c cs)
    have hcs : '\n' ∉ cs := fun hm => h (List.mem_cons_of_mem c hm)
    simp [trimNL, hc] at ih ⊢
    exact ih hcs

/-! ## Claim theorems -/

/-- C1: the claim states that two concurrent login attempts for the same
username always end with exactly one `OK` / one `ERR:Username taken` — at
most one Active session per name under EVERY interleaving of the
`username_taken` check and the `logged_in` commit.  The code violates it:
the check runs under `clients_mutex`, but the commit
(`strncpy(c->username, ...); c->logged_in = 1;`) runs after the mutex is
released, so the schedule check(A), check(B), commit(A), commit(B) makes
BOTH sessions committed (`OK` sent) and Active with the same username —
while the serialized schedule check(A), commit(A), check(B) rejects B as
the spec demands. -/
theorem c1_login_race_eval :
    (raceRun "alice".toList [.check .A, .check .B, .commit .A, .commit .B]).aPc = .committed
    ∧ (raceRun "alice".toList [.check .A, .check .B, .commit .A, .commit .B]).bPc = .committed
    ∧ (raceRun "alice".toList [.check .A, .check .B, .commit .A, .commit .B]).a.loggedIn = true
    ∧ (raceRun "alice".toList [.check .A, .check .B, .commit .A, .commit .B]).b.loggedIn = true
    ∧ (raceRun "alice".toList [.check .A, .check .B, .commit .A, .commit .B]).a.username
        = (raceRun "alice".toList [.check .A, .check .B, .commit .A, .commit .B]).b.username
    ∧ (raceRun "alice".toList [.check .A, .commit .A, .check .B]).bPc = .rejected := by
  decide

/-- C4 counterexample: the claim states that a read ending in a partial line
(no trailing newline) has its residual bytes buffered and prepended to the
next read.  In the code the residual of the first read, `MSG:hel`, is
dispatched immediately as a complete command (enqueuing text `hel`), and the
continuation `lo` from the next read becomes an unknown command — the
single message `hello` is never enqueued. -/
theorem c4_counterexample :
    activeLoop "u".toList ["MSG:hel".toList, "lo\n".toList]
      = [.enqueueEv "u".toList "hel".toList, errUnknownSend]
    ∧ Effect.enqueueEv "u".toList "hello".toList
        ∉ activeLoop "u".toList ["MSG:hel".toList, "lo\n".toList] := by
  decide

/-- C4 amended: complete newline-terminated lines inside one read are split
off correctly (first conjunct), but a read ending in a partial line hands
the residual to command processing immediately as one complete
(1023-byte-truncated) command line instead of buffering it for the next
read (second conjunct). -/
theorem c4_amended_no_residual_buffering (a b : Str) (h : '\n' ∉ a) :
    extractLines (a ++ '\n' :: b) = a.take (MAX_MESSAGE - 1) :: extractLines b
    ∧ (a ≠ [] → extractLines a = [a.take (MAX_MESSAGE - 1)]) := by
  constructor
  · have hs := extractGo_split a b [] h
    have hne : a ++ '\n' :: b ≠ [] := by simp
    rw [extractLines, if_neg hne, hs]
    simp [extractLines]
  · intro ha
    rw [extractLines, if_neg ha, extractGo_no_nl a [] h]
    simp

/-- Witness for the C4 amended theorem at a concrete split read. -/
theorem c4_amended_witness :
    ('\n' ∉ "MSG:par".toList)
    ∧ (extractLines ("MSG:par".toList ++ '\n' :: "x\n".toList)
          = "MSG:par".toList.take (MAX_MESSAGE - 1) :: extractLines "x\n".toList
        ∧ ("MSG:par".toList ≠ []
            → extractLines "MSG:par".toList = ["MSG:par".toList.take (MAX_MESSAGE - 1)])) :=
  ⟨by decide, c4_amended_no_residual_buffering "MSG:par".toList "x\n".toList (by decide)⟩

/-- C5: over every serialized sequence of queue operations (the mutex makes
each operation atomic, so every concurrent history is such a sequence), the
dequeued messages followed by the still-queued ones are exactly the enqueued
messages in enqueue order — so delivery is FIFO, nothing is duplicated, and
nothing is dropped while the server runs; after shutdown
(`server_running = 0`) `dequeue_message` returns `NULL` and the remaining
entries are discarded. -/
theorem c5_queue_fifo (ops : List QOp) :
    (qrun qInit ops).deqLog ++ (qrun qInit ops).queue = (qrun qInit ops).enqLog
    ∧ (∃ rest, (qrun qInit ops).deqLog ++ rest = (qrun qInit ops).enqLog)
    ∧ ∀ q : List message_t, dequeue_message false q = (none, q) := by
  have h := qrun_inv ops qInit rfl
  exact ⟨h, ⟨(qrun qInit ops).queue, h⟩, dequeue_message_not_running⟩

/-- C7: the claim states every control message is transmitted as exactly its
ASCII characters with one trailing newline and nothing after it.  Two call
sites pass a byte count one larger than the string length, so the trailing
NUL goes on the wire: `ERR:Expected PASS:<password>\n` (29 characters, 30
bytes sent) and `ERR:Too many attempts\n` (22 characters, 23 bytes sent).
The other enumerated messages are sent with exactly their own length, and
the offending send is reachable (any non-`PASS:` password-phase line). -/
theorem c7_nul_after_newline :
    ("ERR:Expected PASS:<password>\n".toList.length = 29
      ∧ errExpectedSend = .send "ERR:Expected PASS:<password>\n".toList 30
      ∧ sentBytes "ERR:Expected PASS:<password>\n".toList 30
          = "ERR:Expected PASS:<password>\n".toList.map Char.toNat ++ [0])
    ∧ ("ERR:Too many attempts\n".toList.length = 22
      ∧ errTooManySend = .send "ERR:Too many attempts\n".toList 23
      ∧ sentBytes "ERR:Too many attempts\n".toList 23
          = "ERR:Too many attempts\n".toList.map Char.toNat ++ [0])
    ∧ sentBytes "PASSWORD:\n".toList 10 = "PASSWORD:\n".toList.map Char.toNat
    ∧ sentBytes "OKPASS\n".toList 7 = "OKPASS\n".toList.map Char.toNat
    ∧ sentBytes "ERR:Bad password\n".toList 17 = "ERR:Bad password\n".toList.map Char.toNat
    ∧ sentBytes "OK\n".toList 3 = "OK\n".toList.map Char.toNat
    ∧ errExpectedSend ∈ client_thread ⟨["HELLO\n".toList], none, [], []⟩ := by
  decide

/-- C8: `enqueue_message` reports nothing to its caller (`void` return, no
blocking call outside the internal mutex): when allocation succeeds the
event is appended at the queue tail, and when `calloc` fails the function
returns with the queue unchanged. -/
theorem c8_enqueue_best_effort (s t : Str) (q : List message_t) :
    enqueue_message false s t q = q
    ∧ enqueue_message true s t q = q ++ [mkMessage s t] :=
  ⟨enqueue_message_false s t q, enqueue_message_true s t q⟩

/-- C2: every accepted connection starts in the password phase — the first
effect of `client_thread` is the `PASSWORD:` prompt; if the password phase
never succeeds, the thread performs the password-phase effects and nothing
else (no `LOGIN:` processing); if it succeeds, the login phase runs strictly
after the password-phase effects, the last of which is `OKPASS`, and some
received line was `PASS:` + the configured password. -/
theorem c2_password_before_login (inp : HandlerInput) :
    (client_thread inp).head? = some promptSend
    ∧ ((pwGo 0 inp.pwLines).2 = false → client_thread inp = (pwGo 0 inp.pwLines).1)
    ∧ ((pwGo 0 inp.pwLines).2 = true →
        client_thread inp
          = (pwGo 0 inp.pwLines).1 ++ loginAndActive inp.others inp.activeChunks inp.loginChunk
        ∧ (∃ pre, (pwGo 0 inp.pwLines).1 = pre ++ [okpassSend])
        ∧ ∃ l, l ∈ inp.pwLines ∧ pwCorrect (trimNL l) = true) := by
  refine ⟨?_, fun h => by simp [client_thread, h], fun h => ?_⟩
  · have hh := pwGo_head 0 inp.pwLines (by omega)
    unfold client_thread
    by_cases h2 : (pwGo 0 inp.pwLines).2
    · cases hl : (pwGo 0 inp.pwLines).1 with
      | nil => rw [hl] at hh; simp at hh
      | cons e es =>
        rw [hl] at hh
        simp only [List.head?_cons, Option.some.injEq] at hh
        simp [h2, hl, hh]
    · simp [h2, hh]
  · exact ⟨by simp [client_thread, h], (pwGo_success _ 0 h).1, (pwGo_success _ 0 h).2⟩

/-- Witness for C2 at a concrete session that authenticates and logs in. -/
theorem c2_witness :
    (pwGo 0 (HandlerInput.mk ["PASS:PleaseGiveUsExtraCredit:)\n".toList]
        (some "LOGIN:bob\n".toList) ["QUIT\n".toList] []).pwLines).2 = true
    ∧ (client_thread ⟨["PASS:PleaseGiveUsExtraCredit:)\n".toList],
        some "LOGIN:bob\n".toList, ["QUIT\n".toList], []⟩).head? = some promptSend
    ∧ ∃ l, l ∈ (HandlerInput.mk ["PASS:PleaseGiveUsExtraCredit:)\n".toList]
        (some "LOGIN:bob\n".toList) ["QUIT\n".toList] []).pwLines
        ∧ pwCorrect (trimNL l) = true :=
  ⟨by decide,
    (c2_password_before_login ⟨["PASS:PleaseGiveUsExtraCredit:)\n".toList],
      some "LOGIN:bob\n".toList, ["QUIT\n".toList], []⟩).1,
    ((c2_password_before_login ⟨["PASS:PleaseGiveUsExtraCredit:)\n".toList],
      some "LOGIN:bob\n".toList, ["QUIT\n".toList], []⟩).2.2 (by decide)).2.2⟩

/-- C3: each wrong password-phase line (bad payload or missing `PASS:`) gets
an ERR line and a fresh `PASSWORD:` re-prompt; four wrong lines followed by
one correct line end in `OKPASS` (success), while five wrong lines end in
`ERR:Too many attempts` followed only by the connection being closed — no
sixth prompt. -/
theorem c3_password_retry_budget (w1 w2 w3 w4 c v1 v2 v3 v4 v5 : Str)
    (rest rest2 : List Str)
    (h1 : pwCorrect (trimNL w1) = false) (h2 : pwCorrect (trimNL w2) = false)
    (h3 : pwCorrect (trimNL w3) = false) (h4 : pwCorrect (trimNL w4) = false)
    (hc : pwCorrect (trimNL c) = true)
    (g1 : pwCorrect (trimNL v1) = false) (g2 : pwCorrect (trimNL v2) = false)
    (g3 : pwCorrect (trimNL v3) = false) (g4 : pwCorrect (trimNL v4) = false)
    (g5 : pwCorrect (trimNL v5) = false) :
    pwGo 0 (w1 :: w2 :: w3 :: w4 :: c :: rest)
      = ([promptSend, errOf (trimNL w1), promptSend, errOf (trimNL w2), promptSend,
          errOf (trimNL w3), promptSend, errOf (trimNL w4), promptSend, okpassSend], true)
    ∧ pwGo 0 (v1 :: v2 :: v3 :: v4 :: v5 :: rest2)
      = ([promptSend, errOf (trimNL v1), promptSend, errOf (trimNL v2), promptSend,
          errOf (trimNL v3), promptSend, errOf (trimNL v4), promptSend, errOf (trimNL v5),
          errTooManySend, Effect.removeSelf], false) := by
  constructor
  · rw [pwGo_step_wrong 0 _ _ (by omega) h1, pwGo_step_wrong 1 _ _ (by omega) h2,
      pwGo_step_wrong 2 _ _ (by omega) h3, pwGo_step_wrong 3 _ _ (by omega) h4,
      pwGo_step_correct 4 _ _ (by omega) hc]
  · rw [pwGo_step_wrong 0 _ _ (by omega) g1, pwGo_step_wrong 1 _ _ (by omega) g2,
      pwGo_step_wrong 2 _ _ (by omega) g3, pwGo_step_wrong 3 _ _ (by omega) g4,
      pwGo_step_wrong 4 _ _ (by omega) g5, pwGo_five rest2]

/-- Witness for C3: four bad lines then the correct password; five bad
lines. -/
theorem c3_witness :
    pwCorrect (trimNL "PASS:wrong\n".toList) = false
    ∧ pwCorrect (trimNL "nah\n".toList) = false
    ∧ pwCorrect (trimNL "PASS:PleaseGiveUsExtraCredit:)\n".toList) = true
    ∧ (pwGo 0 ("PASS:wrong\n".toList :: "PASS:wrong\n".toList :: "nah\n".toList
          :: "nah\n".toList :: "PASS:PleaseGiveUsExtraCredit:)\n".toList :: [])
        = ([promptSend, errOf (trimNL "PASS:wrong\n".toList), promptSend,
            errOf (trimNL "PASS:wrong\n".toList), promptSend, errOf (trimNL "nah\n".toList),
            promptSend, errOf (trimNL "nah\n".toList), promptSend, okpassSend], true)
      ∧ pwGo 0 ("nah\n".toList :: "nah\n".toList :: "nah\n".toList :: "nah\n".toList
          :: "nah\n".toList :: [])
        = ([promptSend, errOf (trimNL "nah\n".toList), promptSend,
            errOf (trimNL "nah\n".toList), promptSend, errOf (trimNL "nah\n".toList),
            promptSend, errOf (trimNL "nah\n".toList), promptSend,
            errOf (trimNL "nah\n".toList), errTooManySend, Effect.removeSelf], false)) :=
  ⟨by decide, by decide, by decide,
    c3_password_retry_budget "PASS:wrong\n".toList "PASS:wrong\n".toList "nah\n".toList
      "nah\n".toList "PASS:PleaseGiveUsExtraCredit:)\n".toList "nah\n".toList "nah\n".toList
      "nah\n".toList "nah\n".toList "nah\n".toList [] []
      (by decide) (by decide) (by decide) (by decide) (by decide)
      (by decide) (by decide) (by decide) (by decide) (by decide)⟩

/-! ### Active-loop classification lemmas (for C6) -/

theorem procLines_mem (u : Str) (lines : List Str) :
    ∀ e ∈ (procLines u lines).1, (∃ t, e = Effect.enqueueEv u t) ∨ e = errUnknownSend := by
  induction lines with
  | nil => simp [procLines]
  | cons line rest ih =>
    by_cases hm : "MSG:".toList.isPrefixOf line
    · intro e he
      simp only [procLines, hm, if_true, List.mem_cons] at he
      rcases he with he | he
      · exact Or.inl ⟨line.drop 4, he⟩
      · exact ih e he
    · by_cases hq : line = "QUIT".toList
      · simp [procLines, hm, hq]
      · intro e he
        simp only [procLines, if_neg hm, if_neg hq, List.mem_cons] at he
        rcases he with he | he
        · exact Or.inr he
        · exact ih e he

theorem activeLoop_mem (u : Str) (chunks : List Str) :
    ∀ e ∈ activeLoop u chunks, (∃ t, e = Effect.enqueueEv u t) ∨ e = errUnknownSend := by
  induction chunks with
  | nil => simp [activeLoop]
  | cons ch rest ih =>
    intro e he
    by_cases hch : ch = []
    · simp [activeLoop, hch] at he
    · by_cases hq : (procLines u (extractLines ch)).2 = true
      · simp only [activeLoop, if_neg hch, if_pos hq] at he
        exact procLines_mem u _ e he
      · simp only [activeLoop, if_neg hch, if_neg hq, List.mem_append] at he
        rcases he with he | he
        · exact procLines_mem u _ e he
        · exact ih e he

theorem activeLoop_countP_remove (u : Str) (chunks : List Str) :
    (activeLoop u chunks).countP isRemove = 0 := by
  rw [List.countP_eq_zero]
  intro e he
  rcases activeLoop_mem u chunks e he with ⟨t, rfl⟩ | rfl
  · simp [isRemove]
  · simp [errUnknownSend, isRemove]

theorem activeLoop_countP_enq_server (u : Str) (chunks : List Str) (x : Str)
    (hu : u ≠ serverName) :
    (activeLoop u chunks).countP (fun e => e == Effect.enqueueEv serverName x) = 0 := by
  rw [List.countP_eq_zero]
  intro e he heq
  have heq2 : e = Effect.enqueueEv serverName x := by simpa using heq
  rcases activeLoop_mem u chunks e he with ⟨t, rfl⟩ | rfl
  · injection heq2 with hs ht
    exact hu hs
  · simp [errUnknownSend] at heq2

theorem countP_enq_of_no_enq (l : List Effect) (hl : l.countP isEnq = 0) (s t : Str) :
    l.countP (fun e => e == Effect.enqueueEv s t) = 0 := by
  rw [List.countP_eq_zero] at hl ⊢
  intro e he heq
  have heq2 : e = Effect.enqueueEv s t := by simpa using heq
  subst heq2
  exact hl _ he rfl

theorem take_all_of_short (l : Str) (n : Nat) (h : l.length ≤ n) : l.take n = l :=
  List.take_of_length_le h

theorem joinMsg_ne_leaveMsg (u : Str) (hu : u.length ≤ MAX_USERNAME - 1) :
    joinMsg u ≠ leaveMsg u := by
  have l1 : (" has joined the chat ***".toList).length = 24 := by decide
  have l2 : (" has left the chat ***".toList).length = 22 := by decide
  have l0 : ("*** ".toList).length = 4 := by decide
  have hM : MAX_USERNAME - 1 = 31 := by decide
  have hj : joinMsg u = "*** ".toList ++ u ++ " has joined the chat ***".toList := by
    apply take_all_of_short
    simp only [List.length_append, l0, l1, MAX_MESSAGE]
    omega
  have hl : leaveMsg u = "*** ".toList ++ u ++ " has left the chat ***".toList := by
    apply take_all_of_short
    simp only [List.length_append, l0, l2, MAX_MESSAGE]
    omega
  intro h
  rw [hj, hl] at h
  have := congrArg List.length h
  simp only [List.length_append, l0, l1, l2] at this
  omega

theorem loginOutcomeAux_some_length (others : List RegEntry) (oc : Option Str) (u : Str)
    (h : loginOutcomeAux others oc = some u) : u.length ≤ MAX_USERNAME - 1 := by
  cases oc with
  | none => simp [loginOutcomeAux] at h
  | some chunk =>
    simp only [loginOutcomeAux] at h
    by_cases hlg : "LOGIN:".toList.isPrefixOf (trimNL chunk) = true
    · rw [if_pos hlg] at h
      by_cases he : ((trimNL chunk).drop 6).take (MAX_USERNAME - 1) = []
      · rw [if_pos he] at h
        simp at h
      · rw [if_neg he] at h
        by_cases ht : username_taken (((trimNL chunk).drop 6).take (MAX_USERNAME - 1))
            others = true
        · rw [if_pos ht] at h
          simp at h
        · rw [if_neg ht] at h
          have hu : u = ((trimNL chunk).drop 6).take (MAX_USERNAME - 1) := by
            simpa using h.symm
          rw [hu, List.length_take]
          exact min_le_left _ _
    · rw [if_neg hlg] at h
      simp at h

theorem loginOutcome_some_length (inp : HandlerInput) (u : Str)
    (h : loginOutcome inp = some u) : u.length ≤ MAX_USERNAME - 1 := by
  unfold loginOutcome at h
  by_cases hpw : (pwGo 0 inp.pwLines).2
  · rw [if_pos hpw] at h
    exact loginOutcomeAux_some_length inp.others inp.loginChunk u h
  · rw [if_neg hpw] at h
    simp at h

theorem isRemove_removeSelf : isRemove .removeSelf = true := rfl

theorem isEnq_removeSelf : isEnq .removeSelf = false := rfl

/-- C6: every path of `client_thread` removes the session from the registry
exactly once (one `close_and_free_client` call — never zero, never two);
when login completed, the trace ends with exactly one
`"*** <username> has left the chat ***"` enqueue immediately followed by the
removal (the same for the `QUIT` path and the EOF/read-failure path, which
are both instances of the input), and — provided the username is not the
literal `Server`, which a client could use to forge an identical-looking
event via `MSG:` — that leave event occurs exactly once in the whole trace;
when login never completed, the trace contains no enqueue at all, in
particular no leave announcement. -/
theorem c6_leave_exactly_once (inp : HandlerInput) :
    (client_thread inp).countP isRemove = 1
    ∧ (∀ u, loginOutcome inp = some u →
        (∃ pre, client_thread inp
            = pre ++ [Effect.enqueueEv serverName (leaveMsg u), Effect.removeSelf])
        ∧ (u ≠ serverName →
            (client_thread inp).countP
              (fun e => e == Effect.enqueueEv serverName (leaveMsg u)) = 1))
    ∧ (loginOutcome inp = none → (client_thread inp).countP isEnq = 0) := by
  by_cases hpw : (pwGo 0 inp.pwLines).2 = true
  case neg =>
    have hct : client_thread inp = (pwGo 0 inp.pwLines).1 := by
      unfold client_thread
      rw [if_neg hpw]
    have hlo : loginOutcome inp = none := by
      unfold loginOutcome
      rw [if_neg hpw]
    refine ⟨?_, ?_, ?_⟩
    · rw [hct, pwGo_countP_remove]
      have hpwf : (pwGo 0 inp.pwLines).2 = false := by simpa using hpw
      rw [hpwf]
      simp
    · intro u hu
      rw [hlo] at hu
      cases hu
    · intro _
      rw [hct]
      exact pwGo_countP_enq _ 0
  case pos =>
    have hct : client_thread inp
        = (pwGo 0 inp.pwLines).1 ++ loginAndActive inp.others inp.activeChunks inp.loginChunk := by
      unfold client_thread
      rw [if_pos hpw]
    have hlo0 : loginOutcome inp = loginOutcomeAux inp.others inp.loginChunk := by
      unfold loginOutcome
      rw [if_pos hpw]
    have hremPw : (pwGo 0 inp.pwLines).1.countP isRemove = 0 := by
      rw [pwGo_countP_remove, hpw]
      simp
    have henqPw : (pwGo 0 inp.pwLines).1.countP isEnq = 0 := pwGo_countP_enq _ 0
    cases hchunk : inp.loginChunk with
    | none =>
      have hla : loginAndActive inp.others inp.activeChunks inp.loginChunk
          = [Effect.removeSelf] := by
        rw [hchunk]
        rfl
      have hlo : loginOutcome inp = none := by
        rw [hlo0, hchunk]
        rfl
      refine ⟨?_, ?_, ?_⟩
      · rw [hct, List.countP_append, hremPw, hla]
        decide
      · intro u hu
        rw [hlo] at hu
        cases hu
      · intro _
        rw [hct, List.countP_append, henqPw, hla]
        decide
    | some chunk =>
      by_cases hlg : "LOGIN:".toList.isPrefixOf (trimNL chunk) = true
      case neg =>
        have hla : loginAndActive inp.others inp.activeChunks inp.loginChunk
            = [errInvalidLoginSend, Effect.removeSelf] := by
          rw [hchunk]
          simp only [loginAndActive]
          rw [if_neg hlg]
        have hlo : loginOutcome inp = none := by
          rw [hlo0, hchunk]
          simp only [loginOutcomeAux]
          rw [if_neg hlg]
        refine ⟨?_, ?_, ?_⟩
        · rw [hct, List.countP_append, hremPw, hla]
          decide
        · intro u hu
          rw [hlo] at hu
          cases hu
        · intro _
          rw [hct, List.countP_append, henqPw, hla]
          decide
      case pos =>
        by_cases hemp : ((trimNL chunk).drop 6).take (MAX_USERNAME - 1) = []
        case pos =>
          have hla : loginAndActive inp.others inp.activeChunks inp.loginChunk
              = [errEmptySend, Effect.removeSelf] := by
            rw [hchunk]
            simp only [loginAndActive]
            rw [if_pos hlg, if_pos hemp]
          have hlo : loginOutcome inp = none := by
            rw [hlo0, hchunk]
            simp only [loginOutcomeAux]
            rw [if_pos hlg, if_pos hemp]
          refine ⟨?_, ?_, ?_⟩
          · rw [hct, List.countP_append, hremPw, hla]
            decide
          · intro u hu
            rw [hlo] at hu
            cases hu
          · intro _
            rw [hct, List.countP_append, henqPw, hla]
            decide
        case neg =>
          by_cases htk : username_taken (((trimNL chunk).drop 6).take (MAX_USERNAME - 1))
              inp.others = true
          case pos =>
            have hla : loginAndActive inp.others inp.activeChunks inp.loginChunk
                = [errTakenSend, Effect.removeSelf] := by
              rw [hchunk]
              simp only [loginAndActive]
              rw [if_pos hlg, if_neg hemp, if_pos htk]
            have hlo : loginOutcome inp = none := by
              rw [hlo0, hchunk]
              simp only [loginOutcomeAux]
              rw [if_pos hlg, if_neg hemp, if_pos htk]
            refine ⟨?_, ?_, ?_⟩
            · rw [hct, List.countP_append, hremPw, hla]
              decide
            · intro u hu
              rw [hlo] at hu
              cases hu
            · intro _
              rw [hct, List.countP_append, henqPw, hla]
              decide
          case neg =>
            have hla : loginAndActive inp.others inp.activeChunks inp.loginChunk
                = okSend
                  :: Effect.enqueueEv serverName
                      (joinMsg (((trimNL chunk).drop 6).take (MAX_USERNAME - 1)))
                  :: (activeLoop (((trimNL chunk).drop 6).take (MAX_USERNAME - 1))
                        inp.activeChunks
                      ++ [Effect.enqueueEv serverName
                            (leaveMsg (((trimNL chunk).drop 6).take (MAX_USERNAME - 1))),
                          Effect.removeSelf]) := by
              rw [hchunk]
              simp only [loginAndActive]
              rw [if_pos hlg, if_neg hemp, if_neg htk]
            have hlo : loginOutcome inp
                = some (((trimNL chunk).drop 6).take (MAX_USERNAME - 1)) := by
              rw [hlo0, hchunk]
              simp only [loginOutcomeAux]
              rw [if_pos hlg, if_neg hemp, if_neg htk]
            have hulen : (((trimNL chunk).drop 6).take (MAX_USERNAME - 1)).length
                ≤ MAX_USERNAME - 1 := by
              rw [List.length_take]
              exact min_le_left _ _
            refine ⟨?_, ?_, ?_⟩
            · rw [hct, List.countP_append, hremPw, hla]
              simp [List.countP_cons, List.countP_append, activeLoop_countP_remove,
                okSend, isRemove_send, isRemove_enqueueEv, isRemove_removeSelf]
            · intro u hu
              rw [hlo] at hu
              have huu : ((trimNL chunk).drop 6).take (MAX_USERNAME - 1) = u := by
                simpa using hu
              subst huu
              constructor
              · refine ⟨(pwGo 0 inp.pwLines).1
                    ++ okSend
                    :: Effect.enqueueEv serverName
                        (joinMsg (((trimNL chunk).drop 6).take (MAX_USERNAME - 1)))
                    :: activeLoop (((trimNL chunk).drop 6).take (MAX_USERNAME - 1))
                        inp.activeChunks, ?_⟩
                rw [hct, hla]
                simp
              · intro hne
                have hj : (Effect.enqueueEv serverName
                      (joinMsg (((trimNL chunk).drop 6).take (MAX_USERNAME - 1)))
                    == Effect.enqueueEv serverName
                      (leaveMsg (((trimNL chunk).drop 6).take (MAX_USERNAME - 1)))) = false := by
                  rw [beq_eq_false_iff_ne]
                  intro hcon
                  injection hcon with hs htx
                  exact joinMsg_ne_leaveMsg _ hulen htx
                rw [hct, List.countP_append, countP_enq_of_no_enq _ henqPw, hla]
                simp [List.countP_cons, List.countP_append,
                  activeLoop_countP_enq_server _ inp.activeChunks _ hne, hj, okSend]
            · intro h0
              rw [hlo] at h0
              cases h0

/-- Witness for C6 at a session that logs in as `bob` and quits. -/
theorem c6_witness :
    loginOutcome ⟨["PASS:PleaseGiveUsExtraCredit:)\n".toList],
        some "LOGIN:bob\n".toList, ["QUIT\n".toList], []⟩ = some "bob".toList
    ∧ "bob".toList ≠ serverName
    ∧ (client_thread ⟨["PASS:PleaseGiveUsExtraCredit:)\n".toList],
        some "LOGIN:bob\n".toList, ["QUIT\n".toList], []⟩).countP isRemove = 1
    ∧ (∃ pre, client_thread ⟨["PASS:PleaseGiveUsExtraCredit:)\n".toList],
          some "LOGIN:bob\n".toList, ["QUIT\n".toList], []⟩
        = pre ++ [Effect.enqueueEv serverName (leaveMsg "bob".toList), Effect.removeSelf])
    ∧ (client_thread ⟨["PASS:PleaseGiveUsExtraCredit:)\n".toList],
        some "LOGIN:bob\n".toList, ["QUIT\n".toList], []⟩).countP
          (fun e => e == Effect.enqueueEv serverName (leaveMsg "bob".toList)) = 1 :=
  ⟨by decide, by decide,
    (c6_leave_exactly_once ⟨["PASS:PleaseGiveUsExtraCredit:)\n".toList],
      some "LOGIN:bob\n".toList, ["QUIT\n".toList], []⟩).1,
    ((c6_leave_exactly_once ⟨["PASS:PleaseGiveUsExtraCredit:)\n".toList],
      some "LOGIN:bob\n".toList, ["QUIT\n".toList], []⟩).2.1 "bob".toList (by decide)).1,
    ((c6_leave_exactly_once ⟨["PASS:PleaseGiveUsExtraCredit:)\n".toList],
      some "LOGIN:bob\n".toList, ["QUIT\n".toList], []⟩).2.1 "bob".toList (by decide)).2
      (by decide)⟩

/-! ### Buffer-bound lemmas (for C9) -/

theorem extractGo_mem_length (p : Str) (acc : Str) :
    ∀ l ∈ extractGo acc p, l.length ≤ MAX_MESSAGE - 1 := by
  induction p generalizing acc with
  | nil =>
    intro l hl
    simp only [extractGo, List.mem_singleton] at hl
    rw [hl, List.length_take]
    exact min_le_left _ _
  | cons c cs ih =>
    intro l hl
    by_cases hc : c = '\n'
    · simp only [extractGo, if_pos hc, List.mem_cons] at hl
      rcases hl with h1 | h2
      · rw [h1, List.length_take]
        exact min_le_left _ _
      · by_cases hcs : cs = []
        · rw [if_pos hcs] at h2
          simp at h2
        · rw [if_neg hcs] at h2
          exact ih [] l h2
    · simp only [extractGo, if_neg hc] at hl
      exact ih (acc ++ [c]) l hl

theorem extractLines_mem_length (chunk : Str) :
    ∀ l ∈ extractLines chunk, l.length ≤ MAX_MESSAGE - 1 := by
  intro l hl
  unfold extractLines at hl
  by_cases hc : chunk = []
  · rw [if_pos hc] at hl
    simp at hl
  · rw [if_neg hc] at hl
    exact extractGo_mem_length chunk [] l hl

theorem strncpyCalloc_terminated (src : Str) (n bufLen : Nat) (h : n < bufLen) :
    ∃ k, 1 ≤ k ∧ strncpyCalloc src n bufLen
      = (src.take n).map Char.toNat ++ List.replicate k 0 := by
  have hlen : ((src.take n).map Char.toNat).length ≤ n := by
    rw [List.length_map, List.length_take]
    exact min_le_left _ _
  refine ⟨bufLen - ((src.take n).map Char.toNat).length, by omega, ?_⟩
  unfold strncpyCalloc
  rw [List.take_append_eq_append_take, List.take_of_length_le (by omega),
    List.take_replicate, min_eq_left (by omega)]

theorem broadcast_no_trunc (u v : Str) (hu : u.length ≤ MAX_USERNAME - 1)
    (hv : v.length ≤ MAX_MESSAGE - 1) :
    broadcast_formatted_line u v = u ++ ": ".toList ++ v ++ ['\n']
    ∧ (broadcast_formatted_line u v).length + 1 ≤ MAX_USERNAME + 2 + MAX_MESSAGE + 2 := by
  have h32 : MAX_USERNAME = 32 := rfl
  have h1024 : MAX_MESSAGE = 1024 := rfl
  have hc2 : (": ".toList).length = 2 := rfl
  rw [h32] at hu
  rw [h1024] at hv
  have he : broadcast_formatted_line u v = u ++ ": ".toList ++ v ++ ['\n'] := by
    unfold broadcast_formatted_line
    apply List.take_of_length_le
    simp only [List.length_append, hc2, List.length_singleton, h32, h1024]
    omega
  refine ⟨he, ?_⟩
  rw [he]
  simp only [List.length_append, hc2, List.length_singleton, h32, h1024]
  omega

/-- C9: all line and string handling stays inside the fixed buffers — every
command line the Active loop extracts is at most `MAX_MESSAGE - 1 = 1023`
bytes; the sender and text `enqueue_message` stores are truncated to at most
31 and 1023 bytes and land in `calloc`ed buffers whose remaining bytes stay
0, so at least one NUL terminator always follows the content; and the
Dispatcher's `"<sender>: <text>\n"` formatting of any stored message fits
`out[MAX_USERNAME + 2 + MAX_MESSAGE + 2]` with room for the NUL, so
`snprintf` never truncates it. -/
theorem c9_buffer_safety (chunk l s t u v : Str) :
    (l ∈ extractLines chunk → l.length ≤ MAX_MESSAGE - 1)
    ∧ (mkMessage s t).sender.length ≤ MAX_USERNAME - 1
    ∧ (mkMessage s t).text.length ≤ MAX_MESSAGE - 1
    ∧ (∃ k, 1 ≤ k ∧ strncpyCalloc s (MAX_USERNAME - 1) MAX_USERNAME
        = (s.take (MAX_USERNAME - 1)).map Char.toNat ++ List.replicate k 0)
    ∧ (∃ k, 1 ≤ k ∧ strncpyCalloc t (MAX_MESSAGE - 1) MAX_MESSAGE
        = (t.take (MAX_MESSAGE - 1)).map Char.toNat ++ List.replicate k 0)
    ∧ (u.length ≤ MAX_USERNAME - 1 → v.length ≤ MAX_MESSAGE - 1 →
        broadcast_formatted_line u v = u ++ ": ".toList ++ v ++ ['\n']
        ∧ (broadcast_formatted_line u v).length + 1 ≤ MAX_USERNAME + 2 + MAX_MESSAGE + 2)
    ∧ broadcast_formatted_line (mkMessage s t).sender (mkMessage s t).text
        = (mkMessage s t).sender ++ ": ".toList ++ (mkMessage s t).text ++ ['\n'] := by
  have hsender : (mkMessage s t).sender.length ≤ MAX_USERNAME - 1 := by
    rw [mkMessage, List.length_take]
    exact min_le_left _ _
  have htext : (mkMessage s t).text.length ≤ MAX_MESSAGE - 1 := by
    rw [mkMessage, List.length_take]
    exact min_le_left _ _
  exact ⟨extractLines_mem_length chunk l, hsender, htext,
    strncpyCalloc_terminated s (MAX_USERNAME - 1) MAX_USERNAME (by decide),
    strncpyCalloc_terminated t (MAX_MESSAGE - 1) MAX_MESSAGE (by decide),
    broadcast_no_trunc u v,
    (broadcast_no_trunc _ _ hsender htext).1⟩

/-- Witness for C9 at concrete strings. -/
theorem c9_witness :
    ("hi".toList ∈ extractLines "hi\n".toList)
    ∧ "hi".toList.length ≤ MAX_MESSAGE - 1
    ∧ ("bob".toList.length ≤ MAX_USERNAME - 1 ∧ "hello".toList.length ≤ MAX_MESSAGE - 1)
    ∧ broadcast_formatted_line "bob".toList "hello".toList
        = "bob".toList ++ ": ".toList ++ "hello".toList ++ ['\n'] :=
  ⟨by decide,
    (c9_buffer_safety "hi\n".toList "hi".toList [] [] [] []).1 (by decide),
    ⟨by decide, by decide⟩,
    ((c9_buffer_safety [] [] [] [] "bob".toList "hello".toList).2.2.2.2.2.1
      (by decide) (by decide)).1⟩

/-- C10: the login phase performs a single `recv`, truncates the buffer at
the first newline, and never revisits the bytes after it — the handler's
whole effect trace is identical whether the client pipelines extra bytes
after the `LOGIN:` line in the same read or not.  (`a` is the login line
without its newline, `b` the pipelined bytes, e.g. a `MSG:` command.) -/
theorem c10_pipelined_login_discarded (pwLines : List Str) (others : List RegEntry)
    (activeChunks : List Str) (a b : Str) (h : '\n' ∉ a) :
    client_thread ⟨pwLines, some (a ++ '\n' :: b), activeChunks, others⟩
      = client_thread ⟨pwLines, some (a ++ ['\n']), activeChunks, others⟩ := by
  have h1 : trimNL (a ++ '\n' :: b) = a := trimNL_append_nl a b h
  have h2 : trimNL (a ++ ['\n']) = a := trimNL_append_nl a [] h
  have hla : loginAndActive others activeChunks (some (a ++ '\n' :: b))
      = loginAndActive others activeChunks (some (a ++ ['\n'])) := by
    simp only [loginAndActive, h1, h2]
  show (if (pwGo 0 pwLines).2 then
      (pwGo 0 pwLines).1 ++ loginAndActive others activeChunks (some (a ++ '\n' :: b))
    else (pwGo 0 pwLines).1)
    = (if (pwGo 0 pwLines).2 then
      (pwGo 0 pwLines).1 ++ loginAndActive others activeChunks (some (a ++ ['\n']))
    else (pwGo 0 pwLines).1)
  rw [hla]

/-- Witness for C10: a pipelined `MSG:hi` after the `LOGIN:bob` line in the
same read changes nothing. -/
theorem c10_witness :
    ('\n' ∉ "LOGIN:bob".toList)
    ∧ client_thread ⟨["PASS:PleaseGiveUsExtraCredit:)\n".toList],
        some ("LOGIN:bob".toList ++ '\n' :: "MSG:hi\n".toList), ["QUIT\n".toList], []⟩
      = client_thread ⟨["PASS:PleaseGiveUsExtraCredit:)\n".toList],
        some ("LOGIN:bob".toList ++ ['\n']), ["QUIT\n".toList], []⟩ :=
  ⟨by decide, c10_pipelined_login_discarded _ _ _ "LOGIN:bob".toList "MSG:hi\n".toList
    (by decide)⟩

end ChatServer
